import Mathlib

/-!
Shallow embedding of `src/static/js/app.js` from the residence-status
(在留資格) dashboard.  The embedding covers the record shape consumed by
the table, the client-side filter / search / sort operations over the
module-level state (`allData`, `filteredData`, `currentFilter`,
`currentSort`), the add/edit form validation in `handleFormSubmit`, the
unsaved-change tracker, and `extractFilenameFromDisposition`.

Modelling conventions:
* JSON `null` (and absent object fields) become `Option.none`.
* `filteredData = allData` in the source assigns a *reference*;
  `Array.prototype.filter` allocates a fresh array while
  `Array.prototype.sort` sorts in place.  The state therefore keeps
  `filteredData` as either an alias of `allData` or a materialised copy,
  and sorting through an alias reorders `allData` itself.
* JavaScript's `Array.prototype.sort` is stable (ECMA-262); it is
  embedded as a stable insertion sort driven by the comparator's
  "compare ≤ 0" relation.
* `String.prototype.toLowerCase` is embedded as ASCII case mapping
  (`Char.toLower`); the Unicode simple case mappings agree on ASCII and
  leave the Japanese text occurring in this application unchanged.
* The row JSON keys are Japanese; Lean identifiers cannot contain CJK
  characters, so each field is romanized and its doc comment records the
  exact source key.
-/

namespace ResidenceApp

/-- Deadline slot status object (`期限日n_状態` in the row JSON): the code
only tests `.status === 'overdue'` and displays `.days`. -/
structure SlotStatus where
  status : String
  days : Int
deriving DecidableEq

/-- One table row.  Source keys: `index`, `担当者コード` (person code),
`氏名１`/`氏名２` (name lines), `在留資格` (status category), `国籍`
(nationality), `期限日1_状態`..`期限日3_状態` (deadline slot statuses),
`満了年月日までの日数` (days until the expiry date), `期限レベル分類`
(deadline level class), `満了日数_値` (numeric cumulative expiry-days
value).  Only fields the embedded operations read are modelled. -/
structure Row where
  index : Int
  personCode : String
  nameLine1 : String
  nameLine2 : String
  statusCategory : String
  nationality : String
  deadline1Status : Option SlotStatus
  deadline2Status : Option SlotStatus
  deadline3Status : Option SlotStatus
  daysToExpiryDate : Option Int
  levelClassification : String
  manryoDaysValue : Option Int
deriving DecidableEq

/-- Truthiness-plus-status test `row['期限日n_状態'] && …status === 'overdue'`
(app.js:200-202). -/
def overdueSlot : Option SlotStatus → Bool
  | some st => st.status == "overdue"
  | none => false

/-- Predicate of the `deadline_passed` filter branch (app.js:199-203). -/
def deadlinePassedPred (r : Row) : Bool :=
  overdueSlot r.deadline1Status || overdueSlot r.deadline2Status ||
    overdueSlot r.deadline3Status

/-- Predicate of the `expired` filter branch (app.js:207-210):
`days !== null && days < 0` on `満了年月日までの日数`. -/
def expiredPred (r : Row) : Bool :=
  match r.daysToExpiryDate with
  | some d => decide (d < 0)
  | none => false

/-- Predicate of the `30days`/`60days`/`90days` filter branches
(app.js:214-228): `row['期限レベル分類'] === lv`. -/
def levelPred (lv : String) (r : Row) : Bool :=
  r.levelClassification == lv

/-- Predicate of the `skill1_limit` filter branch (app.js:232-235):
`days !== null && (days + 184) > 1826` on `満了日数_値`. -/
def skill1LimitPred (r : Row) : Bool :=
  match r.manryoDaysValue with
  | some d => decide (d + 184 > 1826)
  | none => false

/-- `filteredData` is either the same array object as `allData` (after
`filteredData = allData`) or a fresh array returned by `filter`. -/
inductive FilteredRef where
  | whole : FilteredRef
  | copy : List Row → FilteredRef
deriving DecidableEq

/-- Sortable columns passed to `sortTable`; `manryoValue` is the numeric
column `満了日数_値` with the null-as-Infinity special case. -/
inductive Column where
  | personCode
  | nameLine1
  | nameLine2
  | statusCategory
  | nationality
  | manryoValue
deriving DecidableEq

/-- The module-level mutable state of `app.js`. -/
structure AppState where
  allData : List Row
  filteredData : FilteredRef
  currentFilter : String
  sortColumn : Option Column
  sortAscending : Bool
deriving DecidableEq

/-- The rows the table currently displays: dereference `filteredData`. -/
def visibleRows (s : AppState) : List Row :=
  match s.filteredData with
  | .whole => s.allData
  | .copy l => l

/-- `filterData(filterType)` (app.js:183-240).  Every branch filters
`allData`; the `all` branch re-aliases `filteredData` to `allData`.  An
unrecognised filter type falls through all branches, leaving
`filteredData` untouched (only `currentFilter` is written). -/
def filterData (ft : String) (s : AppState) : AppState :=
  if ft = "all" then { s with currentFilter := ft, filteredData := .whole }
  else if ft = "deadline_passed" then
    { s with currentFilter := ft,
             filteredData := .copy (s.allData.filter deadlinePassedPred) }
  else if ft = "expired" then
    { s with currentFilter := ft,
             filteredData := .copy (s.allData.filter expiredPred) }
  else if ft = "30days" then
    { s with currentFilter := ft,
             filteredData := .copy (s.allData.filter (levelPred "level1")) }
  else if ft = "60days" then
    { s with currentFilter := ft,
             filteredData := .copy (s.allData.filter (levelPred "level2")) }
  else if ft = "90days" then
    { s with currentFilter := ft,
             filteredData := .copy (s.allData.filter (levelPred "level3")) }
  else if ft = "skill1_limit" then
    { s with currentFilter := ft,
             filteredData := .copy (s.allData.filter skill1LimitPred) }
  else { s with currentFilter := ft }

/-- ASCII lowercase of a string, embedding `toLowerCase` for the
character repertoire this application handles. -/
def jsToLower (s : String) : String :=
  String.mk (s.toList.map Char.toLower)

/-- Whitespace recognised by JavaScript `trim`/`parseInt` for the
character repertoire used here (ASCII whitespace; the Unicode space
classes add only characters this application never feeds in). -/
def isJsSpaceChar (c : Char) : Bool :=
  c = ' ' || c = '\t' || c = '\n' || c = '\r' || c = '\x0B' || c = '\x0C'

/-- JavaScript `String.prototype.trim` on the modelled repertoire. -/
def jsTrim (s : String) : String :=
  String.mk (((s.toList.dropWhile isJsSpaceChar).reverse.dropWhile isJsSpaceChar).reverse)

/-- Plain list prefix test on characters. -/
def charsPrefix : List Char → List Char → Bool
  | [], _ => true
  | _ :: _, [] => false
  | p :: ps, c :: cs => (p == c) && charsPrefix ps cs

/-- `hay.includes(pat)` on exploded strings (substring at any offset;
the empty pattern matches everywhere, as in JavaScript). -/
def listIncludes (pat : List Char) : List Char → Bool
  | [] => pat.isEmpty
  | c :: t => charsPrefix pat (c :: t) || listIncludes pat t

/-- `hay.includes(pat)` for strings. -/
def strIncludes (hay pat : String) : Bool :=
  listIncludes pat.toList hay.toList

/-- The row predicate of `searchData` (app.js:254-260): substring match
of the lowercased search text against the five lowercased fields. -/
def searchPredicate (t : String) (r : Row) : Bool :=
  strIncludes (jsToLower r.personCode) t ||
  strIncludes (jsToLower r.nameLine1) t ||
  strIncludes (jsToLower r.nameLine2) t ||
  strIncludes (jsToLower r.statusCategory) t ||
  strIncludes (jsToLower r.nationality) t

/-- `searchData()` (app.js:243-265) with the raw content of the search
input box as argument.  The text is lowercased then trimmed; an empty
text re-aliases `filteredData` to `allData`, otherwise `allData` (not
the current filter output) is filtered by `searchPredicate`. -/
def searchData (raw : String) (s : AppState) : AppState :=
  if jsTrim (jsToLower raw) = "" then { s with filteredData := .whole }
  else
    { s with filteredData :=
        .copy (s.allData.filter (searchPredicate (jsTrim (jsToLower raw)))) }

/-- Comparator core for the numeric column (app.js:281-284): `null` is
replaced by `Infinity` on both sides before `<`/`>`; this is the
"compare ≤ 0" relation of the ascending comparator. -/
def numKeyLe (a b : Option Int) : Bool :=
  match a, b with
  | some x, some y => decide (x ≤ y)
  | some _, none => true
  | none, some _ => false
  | none, none => true

/-- Value of a string-valued column. -/
def colStr (c : Column) (r : Row) : String :=
  match c with
  | .personCode => r.personCode
  | .nameLine1 => r.nameLine1
  | .nameLine2 => r.nameLine2
  | .statusCategory => r.statusCategory
  | .nationality => r.nationality
  | .manryoValue => ""

/-- "Ascending comparator returns ≤ 0" relation of `sortTable`'s
comparator (app.js:276-289) for column `c`. -/
def rowLeAsc (c : Column) (a b : Row) : Bool :=
  match c with
  | .manryoValue => numKeyLe a.manryoDaysValue b.manryoDaysValue
  | c => decide (colStr c a ≤ colStr c b)

/-- The ascending relation as a `Prop`, fed to the stable sort. -/
def RowLe (c : Column) (a b : Row) : Prop :=
  rowLeAsc c a b = true

instance decRowLe (c : Column) : DecidableRel (RowLe c) :=
  fun _ _ => instDecidableEqBool _ _

/-- Flipped relation: "descending comparator returns ≤ 0". -/
def RowGe (c : Column) (a b : Row) : Prop :=
  RowLe c b a

instance decRowGe (c : Column) : DecidableRel (RowGe c) :=
  fun _ _ => instDecidableEqBool _ _

/-- One in-place `filteredData.sort(comparator)` call: a stable sort by
the comparator's direction. -/
def sortRun (c : Column) (asc : Bool) (l : List Row) : List Row :=
  if asc then l.insertionSort (RowLe c)
  else l.insertionSort (RowGe c)

/-- `sortTable(column)` (app.js:268-293): toggle the direction when the
same column is clicked again, else start ascending; then sort
`filteredData` in place — which reorders `allData` itself whenever
`filteredData` aliases it. -/
def sortTable (c : Column) (s : AppState) : AppState :=
  let asc := if s.sortColumn = some c then !s.sortAscending else true
  let s' := { s with sortColumn := some c, sortAscending := asc }
  match s.filteredData with
  | .whole => { s' with allData := sortRun c asc s.allData, filteredData := .whole }
  | .copy l => { s' with filteredData := .copy (sortRun c asc l) }

/-- One user-visible view operation, for quantifying over operation
sequences. -/
inductive ViewOp where
  | filter : String → ViewOp
  | search : String → ViewOp
  | sortCol : Column → ViewOp

/-- Apply one view operation to the state. -/
def applyOp : ViewOp → AppState → AppState
  | .filter ft, s => filterData ft s
  | .search t, s => searchData t s
  | .sortCol c, s => sortTable c s

/-- Run a sequence of view operations left to right. -/
def runOps (ops : List ViewOp) (s : AppState) : AppState :=
  ops.foldl (fun s op => applyOp op s) s

/-! ### Form submission (`handleFormSubmit`, app.js:467-544) -/

/-- The values of the edit-modal input fields at submit time.  Source
element ids: `editIndex`, `edit担当者コード`, `edit氏名１`, `edit氏名２`,
`edit在留資格`, `edit国籍`, `edit在留カード番号`, `edit生年月日`,
`edit期生`, `edit許可年月日`, `edit満了年月日`, `edit既満了日数`,
`edit設定期限1..3`. -/
structure EditFormState where
  editIndex : String
  personCodeInput : String
  nameLine1Input : String
  nameLine2Input : String
  statusCategoryInput : String
  nationalityInput : String
  cardNumberInput : String
  birthDateInput : String
  kiseiInput : String
  grantDateInput : String
  expiryDateInput : String
  kiManryoDaysInput : String
  deadline1Input : String
  deadline2Input : String
  deadline3Input : String
deriving DecidableEq

/-- The JSON body built at app.js:489-504; field `kiManryoDays` is the
raw `edit既満了日数` input string (`既満了日数` key). -/
structure FormPayload where
  personCode : String
  nameLine1 : String
  nameLine2 : String
  statusCategory : String
  nationality : String
  cardNumber : String
  birthDate : String
  kisei : String
  grantDate : String
  expiryDate : String
  kiManryoDays : String
  deadline1 : String
  deadline2 : String
  deadline3 : String
deriving DecidableEq

/-- Build the request body from the form fields (app.js:489-504). -/
def mkPayload (f : EditFormState) : FormPayload :=
  { personCode := f.personCodeInput
    nameLine1 := f.nameLine1Input
    nameLine2 := f.nameLine2Input
    statusCategory := f.statusCategoryInput
    nationality := f.nationalityInput
    cardNumber := f.cardNumberInput
    birthDate := f.birthDateInput
    kisei := f.kiseiInput
    grantDate := f.grantDateInput
    expiryDate := f.expiryDateInput
    kiManryoDays := f.kiManryoDaysInput
    deadline1 := f.deadline1Input
    deadline2 := f.deadline2Input
    deadline3 := f.deadline3Input }

/-- Outcome of a submit: a field-level validation rejection (alert text
plus the id of the focused field, no request made), or the network
request that is issued (`POST /api/data/add` or `PUT /api/data/update`).
A `blocked` outcome carries no payload: the validation return happens
before any `fetch`. -/
inductive SubmitOutcome where
  | blocked : String → String → SubmitOutcome
  | postAdd : FormPayload → SubmitOutcome
  | putUpdate : String → FormPayload → SubmitOutcome
deriving DecidableEq

/-- Decimal digit value. -/
def digit10 (c : Char) : Option Nat :=
  if '0' ≤ c ∧ c ≤ '9' then some (c.toNat - 48) else none

/-- Hexadecimal digit value (both cases). -/
def digit16 (c : Char) : Option Nat :=
  if '0' ≤ c ∧ c ≤ '9' then some (c.toNat - 48)
  else if 'a' ≤ c ∧ c ≤ 'f' then some (c.toNat - 87)
  else if 'A' ≤ c ∧ c ≤ 'F' then some (c.toNat - 55)
  else none

/-- Longest digit prefix under a digit-value function. -/
def digitsRun (dv : Char → Option Nat) : List Char → List Nat
  | [] => []
  | c :: t =>
    match dv c with
    | some d => d :: digitsRun dv t
    | none => []

/-- `parseInt(string)` with no radix argument (ECMA-262): skip leading
whitespace, read an optional sign, honour a `0x`/`0X` prefix as base 16
(base 10 otherwise), parse the longest run of digits and ignore the
rest; no digits means `NaN`, modelled as `none`. -/
def jsParseInt (s : String) : Option Int :=
  let l0 := s.toList.dropWhile isJsSpaceChar
  let sgn : Bool × List Char :=
    match l0 with
    | '-' :: t => (true, t)
    | '+' :: t => (false, t)
    | _ => (false, l0)
  let rad : Nat × List Char :=
    match sgn.2 with
    | '0' :: 'x' :: t => (16, t)
    | '0' :: 'X' :: t => (16, t)
    | _ => (10, sgn.2)
  let ds := digitsRun (if rad.1 = 16 then digit16 else digit10) rad.2
  if ds.isEmpty then none
  else
    let n : Nat := ds.foldl (fun acc d => acc * rad.1 + d) 0
    some (if sgn.1 then -(n : Int) else (n : Int))

/-- The tier-1 marker test of app.js:475:
`includes('特定技能') && (includes('1号') || includes('１号'))`. -/
def tier1Marker (z : String) : Bool :=
  strIncludes z "特定技能" && (strIncludes z "1号" || strIncludes z "１号")

/-- The request issued when validation passes (app.js:506-524): `POST`
for an empty `editIndex`, `PUT` otherwise. -/
def submitRequest (f : EditFormState) : SubmitOutcome :=
  if f.editIndex = "" then SubmitOutcome.postAdd (mkPayload f)
  else SubmitOutcome.putUpdate f.editIndex (mkPayload f)

/-- `handleFormSubmit` (app.js:467-544) up to the validation decision:
when the status category carries the tier-1 marker, an empty
`既満了日数` input — or one whose `parseInt` is `NaN` or negative — is
rejected with an alert and focus on `edit既満了日数`, before any network
call; otherwise the request is issued with the raw field values. -/
def handleFormSubmit (f : EditFormState) : SubmitOutcome :=
  if tier1Marker f.statusCategoryInput then
    if f.kiManryoDaysInput = "" then
      SubmitOutcome.blocked
        "特定技能1号の場合、既満了日数の入力は必須です。\n0以上の数値を入力してください。"
        "edit既満了日数"
    else
      match jsParseInt f.kiManryoDaysInput with
      | none =>
        SubmitOutcome.blocked "既満了日数は0以上の数値を入力してください。" "edit既満了日数"
      | some n =>
        if n < 0 then
          SubmitOutcome.blocked "既満了日数は0以上の数値を入力してください。" "edit既満了日数"
        else submitRequest f
  else submitRequest f

/-- The spec's wording of the validity condition, for comparison with
the code's check: the field holds a non-negative integer, i.e. a
non-empty string consisting solely of ASCII decimal digits. -/
def specNonnegIntegerString (s : String) : Bool :=
  !s.toList.isEmpty && s.toList.all (fun c => '0' ≤ c && c ≤ '9')

/-! ### Unsaved-change tracker (app.js:598-655) -/

/-- The three module-level tracker variables.  Timestamps are epoch
milliseconds (`Date.now()` / `Date.getTime()`). -/
structure TrackerState where
  hasUnsavedChanges : Bool
  lastChangeTimestamp : Option Nat
  lastExportedAt : Option Nat
deriving DecidableEq

/-- `markUnsavedChanges()` (app.js:626-630), run after every successful
add/update (app.js:538) and delete (app.js:574); `now` is `Date.now()`. -/
def markUnsavedChanges (now : Nat) (s : TrackerState) : TrackerState :=
  { s with hasUnsavedChanges := true, lastChangeTimestamp := some now }

/-- `resetUnsavedChanges()` (app.js:632-636), run after a successful
processed-data export (app.js:374) and after a successful upload. -/
def resetUnsavedChanges (s : TrackerState) : TrackerState :=
  { s with hasUnsavedChanges := false, lastChangeTimestamp := none }

/-- `updateLastExportInfo(summary)` (app.js:605-624).  The summary's
`last_exported_at` string is represented by its parsed epoch value
(the `parseSummaryTimestamp` result), `none` when missing or
unparsable.  The guard `lastChangeTimestamp && lastExportedAt && …`
tests JavaScript truthiness: a `null` (or theoretical zero) change
timestamp fails it, while a parsed `Date` object is always truthy. -/
def updateLastExportInfo (exportedAt : Option Nat) (s : TrackerState) : TrackerState :=
  let s' := { s with lastExportedAt := exportedAt }
  match s.lastChangeTimestamp, exportedAt with
  | some tc, some te =>
    if tc ≠ 0 ∧ tc ≤ te then
      { s' with hasUnsavedChanges := false, lastChangeTimestamp := none }
    else s'
  | _, _ => s'

/-! ### Content-Disposition filename extraction (app.js:582-596)

The regex is `/filename\*=UTF-8''([^;]+)|filename="?([^";]+)"?/i` and is
run with `exec`: the scan visits start offsets left to right and at each
offset tries the encoded alternative before the plain one, so the
leftmost-starting parameter wins. -/

/-- The ASCII apostrophe (U+0027), written by code point. -/
def apos : Char := Char.ofNat 39

/-- The ASCII double quote. -/
def quoteChar : Char := '"'

/-- The literal of the encoded alternative, `filename*=UTF-8''`,
stored lowercased for the case-insensitive comparison. -/
def encPattern : List Char := "filename*=utf-8".toList ++ [apos, apos]

/-- The literal of the plain alternative, `filename=`. -/
def plainPattern : List Char := "filename=".toList

/-- Case-insensitive literal prefix test (the `/i` flag on the ASCII
pattern letters). -/
def ciLit : List Char → List Char → Bool
  | [], _ => true
  | _ :: _, [] => false
  | p :: ps, c :: cs => (p.toLower == c.toLower) && ciLit ps cs

/-- Try the alternative `filename\*=UTF-8''([^;]+)` at this offset:
after the literal, the greedy group takes every following character up
to the first `;`, and must be non-empty. -/
def tryEncodedAlt (l : List Char) : Option (List Char) :=
  if ciLit encPattern l then
    let g := (l.drop encPattern.length).takeWhile (fun c => c ≠ ';')
    if g.isEmpty then none else some g
  else none

/-- Try the alternative `filename="?([^";]+)"?` at this offset: after
the literal an optional opening quote is consumed, then the greedy
group takes characters that are neither `"` nor `;` and must be
non-empty (the trailing optional quote constrains nothing). -/
def tryPlainAlt (l : List Char) : Option (List Char) :=
  if ciLit plainPattern l then
    let rest := l.drop plainPattern.length
    let rest2 :=
      match rest with
      | c :: t => if c = quoteChar then t else rest
      | [] => ([] : List Char)
    let g := rest2.takeWhile (fun c => !(c = quoteChar || c = ';'))
    if g.isEmpty then none else some g
  else none

/-- `filenameRegex.exec(disposition)`: the leftmost match, preferring
the encoded alternative at equal offsets; `inl` is capture group 1
(encoded), `inr` capture group 2 (plain). -/
def execFilenameRegex : List Char → Option (String ⊕ String)
  | [] => none
  | c :: t =>
    match tryEncodedAlt (c :: t) with
    | some g => some (Sum.inl (String.mk g))
    | none =>
      match tryPlainAlt (c :: t) with
      | some g => some (Sum.inr (String.mk g))
      | none => execFilenameRegex t

/-- UTF-8 byte sequence of one character. -/
def charUtf8Bytes (c : Char) : List Nat :=
  let n := c.toNat
  if n < 128 then [n]
  else if n < 2048 then [192 + n / 64, 128 + n % 64]
  else if n < 65536 then [224 + n / 4096, 128 + (n / 64) % 64, 128 + n % 64]
  else [240 + n / 262144, 128 + (n / 4096) % 64, 128 + (n / 64) % 64, 128 + n % 64]

/-- Percent-decode to a byte string: `%hh` becomes one byte, any other
character stands for its UTF-8 bytes; a `%` not followed by two hex
digits fails (a thrown `URIError`). -/
def pctDecodeBytes : List Char → Option (List Nat)
  | [] => some []
  | '%' :: a :: b :: t =>
    match digit16 a, digit16 b with
    | some ha, some hb => (pctDecodeBytes t).map (fun r => (16 * ha + hb) :: r)
    | _, _ => none
  | '%' :: _ => none
  | c :: t => (pctDecodeBytes t).map (fun r => charUtf8Bytes c ++ r)

/-- Is `b` a UTF-8 continuation byte? -/
def contByte (b : Nat) : Bool := 128 ≤ b && b < 192

/-- Strict UTF-8 decoding of a byte string (rejecting stray or missing
continuation bytes, overlong encodings, surrogates and values beyond
U+10FFFF), as `decodeURIComponent` requires; `none` models a thrown
`URIError`. -/
def utf8DecodeChars : List Nat → Option (List Char)
  | [] => some []
  | b :: t =>
    if b < 128 then
      (utf8DecodeChars t).map (fun r => Char.ofNat b :: r)
    else if b < 192 then none
    else if b < 224 then
      match t with
      | b2 :: t2 =>
        if contByte b2 then
          let cp := (b - 192) * 64 + (b2 - 128)
          if 128 ≤ cp then (utf8DecodeChars t2).map (fun r => Char.ofNat cp :: r)
          else none
        else none
      | [] => none
    else if b < 240 then
      match t with
      | b2 :: b3 :: t3 =>
        if contByte b2 && contByte b3 then
          let cp := (b - 224) * 4096 + (b2 - 128) * 64 + (b3 - 128)
          if 2048 ≤ cp ∧ ¬(55296 ≤ cp ∧ cp ≤ 57343) then
            (utf8DecodeChars t3).map (fun r => Char.ofNat cp :: r)
          else none
        else none
      | _ => none
    else if b < 248 then
      match t with
      | b2 :: b3 :: b4 :: t4 =>
        if contByte b2 && contByte b3 && contByte b4 then
          let cp := (b - 240) * 262144 + (b2 - 128) * 4096 + (b3 - 128) * 64 + (b4 - 128)
          if 65536 ≤ cp ∧ cp ≤ 1114111 then
            (utf8DecodeChars t4).map (fun r => Char.ofNat cp :: r)
          else none
        else none
      | _ => none
    else none

/-- `decodeURIComponent` on the capture: percent-escapes become bytes,
which must form valid UTF-8; `none` models a thrown `URIError`. -/
def decodeURIComponentModel (s : String) : Option String :=
  match pctDecodeBytes s.toList with
  | none => none
  | some bs =>
    match utf8DecodeChars bs with
    | none => none
    | some cs => some (String.mk cs)

/-- `extractFilenameFromDisposition` (app.js:582-596): no match returns
`null`; an encoded capture is percent-decoded, falling back to the raw
capture when decoding throws; otherwise the plain capture is returned. -/
def extractFilenameFromDisposition (disposition : String) : Option String :=
  match execFilenameRegex disposition.toList with
  | none => none
  | some (Sum.inl encoded) =>
    match decodeURIComponentModel encoded with
    | some d => some d
    | none => some encoded
  | some (Sum.inr plain) => some plain

/-! ### Concrete sample data -/

/-- The named filter types wired to the filter buttons (app.js:183-240;
`30days`/`60days`/`90days` are the level1/level2/level3 filters). -/
def namedFilters : List String :=
  ["all", "deadline_passed", "expired", "30days", "60days", "90days", "skill1_limit"]

/-- A tier-1 specific-skilled-worker row over the cumulative cap:
`1650 + 184 = 1834 > 1826`. -/
def rowSkill : Row :=
  { index := 1, personCode := "A01", nameLine1 := "TARO", nameLine2 := "YAMADA",
    statusCategory := "特定技能1号", nationality := "VIETNAM",
    deadline1Status := none, deadline2Status := none, deadline3Status := none,
    daysToExpiryDate := some 5, levelClassification := "level1",
    manryoDaysValue := some 1650 }

/-- A row with a null cumulative value and a comfortable expiry. -/
def rowSafe : Row :=
  { index := 2, personCode := "B02", nameLine1 := "HANA", nameLine2 := "SATO",
    statusCategory := "技術・人文知識・国際業務", nationality := "CHINA",
    deadline1Status := none, deadline2Status := none, deadline3Status := none,
    daysToExpiryDate := some 120, levelClassification := "",
    manryoDaysValue := none }

/-- A row whose expiry date has passed. -/
def rowExpired : Row :=
  { index := 3, personCode := "C03", nameLine1 := "JOHN", nameLine2 := "SMITH",
    statusCategory := "技能実習", nationality := "USA",
    deadline1Status := some { status := "overdue", days := 4 },
    deadline2Status := none, deadline3Status := none,
    daysToExpiryDate := some (-3), levelClassification := "level1",
    manryoDaysValue := some 100 }

/-- Two rows with equal sort keys on `満了日数_値` but different ids. -/
def rowTie1 : Row :=
  { index := 4, personCode := "D04", nameLine1 := "AAA", nameLine2 := "BBB",
    statusCategory := "留学", nationality := "KOREA",
    deadline1Status := none, deadline2Status := none, deadline3Status := none,
    daysToExpiryDate := some 10, levelClassification := "",
    manryoDaysValue := some 5 }

/-- Second row of the tie, identical key, different id. -/
def rowTie2 : Row :=
  { index := 5, personCode := "E05", nameLine1 := "CCC", nameLine2 := "DDD",
    statusCategory := "留学", nationality := "KOREA",
    deadline1Status := none, deadline2Status := none, deadline3Status := none,
    daysToExpiryDate := some 20, levelClassification := "",
    manryoDaysValue := some 5 }

/-- Fresh page state over a dataset: `filteredData = allData` (app.js:59)
and no sort column chosen yet. -/
def baseState (l : List Row) : AppState :=
  { allData := l, filteredData := .whole, currentFilter := "all",
    sortColumn := none, sortAscending := true }

/-- A tier-1 form whose `既満了日数` input is `"3.5"`. -/
def fracForm : EditFormState :=
  { editIndex := "", personCodeInput := "A01", nameLine1Input := "TARO",
    nameLine2Input := "YAMADA", statusCategoryInput := "特定技能1号",
    nationalityInput := "VIETNAM", cardNumberInput := "", birthDateInput := "",
    kiseiInput := "", grantDateInput := "", expiryDateInput := "",
    kiManryoDaysInput := "3.5", deadline1Input := "90", deadline2Input := "60",
    deadline3Input := "30" }

/-- A tier-1 form with a valid `既満了日数` input `"1650"`. -/
def validForm : EditFormState :=
  { fracForm with kiManryoDaysInput := "1650" }

/-- Two apostrophes, the `''` of the RFC 5987 form. -/
def apos2 : String := String.mk [apos, apos]

/-- A header carrying the plain form before the encoded form. -/
def bothFormsPlainFirst : String :=
  "attachment; filename=\"plain.xlsx\"; filename*=UTF-8" ++ apos2 ++
    "%E5%9C%A8%E7%95%99.xlsx"

/-- A header carrying the encoded form before the plain form. -/
def bothFormsEncodedFirst : String :=
  "attachment; filename*=UTF-8" ++ apos2 ++
    "%E5%9C%A8%E7%95%99.xlsx; filename=\"plain.xlsx\""

/-- A header whose encoded capture has malformed percent-encoding. -/
def malformedHeader : String :=
  "attachment; filename*=UTF-8" ++ apos2 ++ "%ZZ.xlsx"

/-- A tracker state after a local edit at time 100. -/
def dirtyTracker : TrackerState :=
  { hasUnsavedChanges := true, lastChangeTimestamp := some 100,
    lastExportedAt := none }

/-! ### Order properties of the sort comparator -/

theorem numKeyLe_total (a b : Option Int) : numKeyLe a b = true ∨ numKeyLe b a = true := by
  cases a <;> cases b <;> simp [numKeyLe] <;> omega

theorem numKeyLe_trans {a b c : Option Int} (h1 : numKeyLe a b = true)
    (h2 : numKeyLe b c = true) : numKeyLe a c = true := by
  cases a <;> cases b <;> cases c <;> simp [numKeyLe] at * <;> omega

theorem rowLeAsc_total (c : Column) (a b : Row) :
    rowLeAsc c a b = true ∨ rowLeAsc c b a = true := by
  cases c
  case manryoValue => exact numKeyLe_total _ _
  all_goals simp only [rowLeAsc, decide_eq_true_eq]
  all_goals exact le_total _ _

theorem rowLeAsc_trans (c : Column) {a b d : Row} (h1 : rowLeAsc c a b = true)
    (h2 : rowLeAsc c b d = true) : rowLeAsc c a d = true := by
  cases c
  case manryoValue => exact numKeyLe_trans h1 h2
  all_goals simp only [rowLeAsc, decide_eq_true_eq] at *
  all_goals exact le_trans h1 h2

instance instIsTotalRowLe (c : Column) : IsTotal Row (RowLe c) :=
  ⟨fun a b => rowLeAsc_total c a b⟩

instance instIsTransRowLe (c : Column) : IsTrans Row (RowLe c) :=
  ⟨fun _ _ _ h1 h2 => rowLeAsc_trans c h1 h2⟩

instance instIsTotalRowGe (c : Column) : IsTotal Row (RowGe c) :=
  ⟨fun a b => rowLeAsc_total c b a⟩

instance instIsTransRowGe (c : Column) : IsTrans Row (RowGe c) :=
  ⟨fun _ _ _ h1 h2 => rowLeAsc_trans c h2 h1⟩

/-! ### Claim C1 -/

/-- C1: selecting the `skill1_limit` named filter includes a record iff
its cumulative expiry-days value (`満了日数_値`, the record field behind
the spec's `daysAlreadyElapsed`) is non-null and satisfies
`(value + 184) > 1826`, the tier-1 cumulative check. -/
theorem skill1_limit_filter_iff (s : AppState) (r : Row) :
    r ∈ visibleRows (filterData "skill1_limit" s) ↔
      r ∈ s.allData ∧ ∃ d, r.manryoDaysValue = some d ∧ d + 184 > 1826 := by
  have h : visibleRows (filterData "skill1_limit" s) =
      s.allData.filter skill1LimitPred := rfl
  rw [h, List.mem_filter]
  cases hm : r.manryoDaysValue with
  | none => simp [skill1LimitPred, hm]
  | some d => simp [skill1LimitPred, hm]

/-! ### Claim C6 -/

/-- C6: the `expired` filter matches exactly the records with non-null,
strictly negative `満了年月日までの日数` (so null is never matched), and
ascending sort on the numeric `満了日数_値` column treats null as
`Infinity`: in the sorted output, everything after a null record is
null, i.e. null records sit at the end. -/
theorem expired_excludes_null_and_nulls_sort_last :
    (∀ (s : AppState) (r : Row),
        r ∈ visibleRows (filterData "expired" s) ↔
          r ∈ s.allData ∧ ∃ d, r.daysToExpiryDate = some d ∧ d < 0)
    ∧ ∀ l : List Row,
        (sortRun Column.manryoValue true l).Pairwise
          (fun a b => a.manryoDaysValue = none → b.manryoDaysValue = none) := by
  constructor
  · intro s r
    have h : visibleRows (filterData "expired" s) = s.allData.filter expiredPred := rfl
    rw [h, List.mem_filter]
    cases hm : r.daysToExpiryDate with
    | none => simp [expiredPred, hm]
    | some d => simp [expiredPred, hm]
  · intro l
    have hs : List.Pairwise (RowLe Column.manryoValue)
        (List.insertionSort (RowLe Column.manryoValue) l) :=
      List.sorted_insertionSort _ l
    have hrun : sortRun Column.manryoValue true l =
        List.insertionSort (RowLe Column.manryoValue) l := rfl
    rw [hrun]
    refine hs.imp ?_
    intro a b hab ha
    have hab' : numKeyLe a.manryoDaysValue b.manryoDaysValue = true := hab
    rw [ha] at hab'
    cases hb : b.manryoDaysValue with
    | none => rfl
    | some y => rw [hb] at hab'; simp [numKeyLe] at hab'

/-! ### Claim C7 -/

theorem filterData_allData (ft : String) (s : AppState) :
    (filterData ft s).allData = s.allData := by
  unfold filterData
  split_ifs <;> rfl

/-- C7: every named filter reads the full `allData`, never the previous
filter's output — so the visible rows after `filterData ft` depend only
on `allData` — and the round trip `all`, then any named filter, then
`all` again displays exactly the original dataset (the same record
list, hence the same id-set). -/
theorem named_filter_full_dataset_roundtrip (s₁ s₂ : AppState) (ft : String)
    (hft : ft ∈ namedFilters) :
    (s₁.allData = s₂.allData →
      visibleRows (filterData ft s₁) = visibleRows (filterData ft s₂))
    ∧ visibleRows (filterData "all" (filterData ft (filterData "all" s₁))) =
        s₁.allData := by
  have hall : ∀ s : AppState, visibleRows (filterData "all" s) = s.allData :=
    fun _ => rfl
  constructor
  · intro h
    simp only [namedFilters, List.mem_cons, List.not_mem_nil, or_false] at hft
    rcases hft with rfl | rfl | rfl | rfl | rfl | rfl | rfl
    · rw [hall, hall, h]
    · have e : ∀ s : AppState, visibleRows (filterData "deadline_passed" s) =
          s.allData.filter deadlinePassedPred := fun _ => rfl
      rw [e, e, h]
    · have e : ∀ s : AppState, visibleRows (filterData "expired" s) =
          s.allData.filter expiredPred := fun _ => rfl
      rw [e, e, h]
    · have e : ∀ s : AppState, visibleRows (filterData "30days" s) =
          s.allData.filter (levelPred "level1") := fun _ => rfl
      rw [e, e, h]
    · have e : ∀ s : AppState, visibleRows (filterData "60days" s) =
          s.allData.filter (levelPred "level2") := fun _ => rfl
      rw [e, e, h]
    · have e : ∀ s : AppState, visibleRows (filterData "90days" s) =
          s.allData.filter (levelPred "level3") := fun _ => rfl
      rw [e, e, h]
    · have e : ∀ s : AppState, visibleRows (filterData "skill1_limit" s) =
          s.allData.filter skill1LimitPred := fun _ => rfl
      rw [e, e, h]
  · rw [hall, filterData_allData, filterData_allData]

/-- Witness for C7 at a concrete dataset and the `expired` filter. -/
theorem named_filter_full_dataset_roundtrip_witness :
    visibleRows (filterData "all" (filterData "expired"
        (filterData "all" (baseState [rowSkill, rowExpired])))) =
      (baseState [rowSkill, rowExpired]).allData :=
  (named_filter_full_dataset_roundtrip (baseState [rowSkill, rowExpired])
    (baseState [rowSkill, rowExpired]) "expired" (by decide)).2

/-! ### Claim C2 -/

theorem searchData_allData (raw : String) (s : AppState) :
    (searchData raw s).allData = s.allData := by
  unfold searchData
  split <;> rfl

theorem sortRun_perm (c : Column) (asc : Bool) (l : List Row) :
    (sortRun c asc l).Perm l := by
  unfold sortRun
  split <;> exact List.perm_insertionSort _ _

theorem sortTable_allData_copy (c : Column) (s : AppState) (l : List Row)
    (h : s.filteredData = FilteredRef.copy l) :
    (sortTable c s).allData = s.allData := by
  simp [sortTable, h]

theorem applyOp_allData_perm (op : ViewOp) (s : AppState) :
    ((applyOp op s).allData).Perm s.allData := by
  cases op with
  | filter ft =>
    show ((filterData ft s).allData).Perm s.allData
    rw [filterData_allData]
  | search t =>
    show ((searchData t s).allData).Perm s.allData
    rw [searchData_allData]
  | sortCol c =>
    show ((sortTable c s).allData).Perm s.allData
    cases hf : s.filteredData with
    | whole =>
      simp only [sortTable, hf]
      exact sortRun_perm _ _ _
    | copy l =>
      rw [sortTable_allData_copy c s l hf]

/-- C2 counterexample: from a freshly loaded state (`filteredData`
aliases `allData`), a single ascending sort on `満了日数_値` reorders
`allData` itself, so the Dataset's sequence is not unchanged under
filter/search/sort operations. -/
theorem dataset_order_counterexample :
    (runOps [ViewOp.sortCol Column.manryoValue]
        (baseState [rowSafe, rowSkill])).allData ≠
      (baseState [rowSafe, rowSkill]).allData := by decide

/-- C2 amended: no filter/search/sort operation ever adds, removes or
mutates a record — `allData` is preserved as a multiset (so every id and
field value survives) — and `filterData`/`searchData` leave `allData`
untouched, as does `sortTable` whenever `filteredData` is a materialised
filtered copy; only a sort issued while `filteredData` aliases `allData`
can reorder the Dataset, which is exactly what the counterexample
exhibits. -/
theorem dataset_preserved_amended :
    (∀ (ops : List ViewOp) (s : AppState),
      ((runOps ops s).allData).Perm s.allData)
    ∧ (∀ (ft : String) (s : AppState), (filterData ft s).allData = s.allData)
    ∧ (∀ (raw : String) (s : AppState), (searchData raw s).allData = s.allData)
    ∧ ∀ (c : Column) (s : AppState) (l : List Row),
        s.filteredData = FilteredRef.copy l →
          (sortTable c s).allData = s.allData := by
  refine ⟨?_, filterData_allData, searchData_allData, sortTable_allData_copy⟩
  intro ops
  induction ops with
  | nil => intro s; exact List.Perm.refl _
  | cons op ops ih =>
    intro s
    have h1 : runOps (op :: ops) s = runOps ops (applyOp op s) := rfl
    rw [h1]
    exact (ih (applyOp op s)).trans (applyOp_allData_perm op s)

/-- Witness for the amended C2 at a concrete state with a materialised
filtered copy. -/
theorem dataset_preserved_amended_witness :
    (sortTable Column.manryoValue
        { baseState [rowSafe, rowSkill] with
            filteredData := FilteredRef.copy [rowExpired] }).allData =
      { baseState [rowSafe, rowSkill] with
          filteredData := FilteredRef.copy [rowExpired] }.allData :=
  dataset_preserved_amended.2.2.2 Column.manryoValue _ [rowExpired] rfl

/-! ### Claim C5 -/

theorem visibleRows_sortTable (c : Column) (s : AppState) :
    visibleRows (sortTable c s) =
      sortRun c (if s.sortColumn = some c then !s.sortAscending else true)
        (visibleRows s) := by
  cases hf : s.filteredData with
  | whole => simp [sortTable, visibleRows, hf]
  | copy l => simp [sortTable, visibleRows, hf]

theorem sortTable_sortColumn (c : Column) (s : AppState) :
    (sortTable c s).sortColumn = some c := by
  cases hf : s.filteredData <;> simp [sortTable, hf]

theorem sortTable_sortAscending (c : Column) (s : AppState) :
    (sortTable c s).sortAscending =
      (if s.sortColumn = some c then !s.sortAscending else true) := by
  cases hf : s.filteredData <;> simp [sortTable, hf]

/-- A stable sort under the flipped relation of a tie-free sorted list
is its reverse. -/
theorem insertionSort_flip_eq_reverse (S S' : Row → Row → Prop)
    [DecidableRel S'] [IsTotal Row S'] [IsTrans Row S']
    (hSS' : ∀ a b, S' a b ↔ S b a) (l' : List Row)
    (hsort : l'.Pairwise S)
    (hD : l'.Pairwise fun a b => ¬(S a b ∧ S b a)) :
    List.insertionSort S' l' = l'.reverse := by
  have hDsymm : ∀ {a b : Row}, ¬(S a b ∧ S b a) → ¬(S b a ∧ S a b) :=
    fun h hc => h ⟨hc.2, hc.1⟩
  haveI : IsAntisymm Row (fun a b => S' a b ∧ ¬(S a b ∧ S b a)) := ⟨by
    intro a b h1 h2
    exact (h1.2 ⟨(hSS' b a).mp h2.1, (hSS' a b).mp h1.1⟩).elim⟩
  have hperm1 : (List.insertionSort S' l').Perm l' := List.perm_insertionSort S' l'
  have hperm : (List.insertionSort S' l').Perm l'.reverse :=
    hperm1.trans (List.reverse_perm l').symm
  have hS1 : (List.insertionSort S' l').Pairwise S' := List.sorted_insertionSort S' l'
  have hD1 : (List.insertionSort S' l').Pairwise
      (fun a b => ¬(S a b ∧ S b a)) :=
    (hperm1.pairwise_iff (fun h => hDsymm h)).mpr hD
  have hS2 : l'.reverse.Pairwise S' := by
    rw [List.pairwise_reverse]
    exact hsort.imp (fun h => (hSS' _ _).mpr h)
  have hD2 : l'.reverse.Pairwise (fun a b => ¬(S a b ∧ S b a)) := by
    rw [List.pairwise_reverse]
    exact hD.imp (fun h => hDsymm h)
  exact List.eq_of_perm_of_sorted hperm (hS1.and hD1) (hS2.and hD2)

/-- C5 counterexample: on a dataset with two records tied on the sort
column (`満了日数_値 = 5` for both), sorting twice leaves the stable
order `[rowTie1, rowTie2]` unchanged, which is not the reverse of the
once-sorted sequence, so `sort(sort(D,c),c)` does not reverse
`sort(D,c)` in general. -/
theorem sort_toggle_counterexample :
    visibleRows (sortTable Column.manryoValue (sortTable Column.manryoValue
        (baseState [rowTie1, rowTie2]))) ≠
      (visibleRows (sortTable Column.manryoValue
        (baseState [rowTie1, rowTie2]))).reverse := by decide

/-- C5 amended: clicking the same column twice toggles the direction,
and whenever the visible rows carry pairwise distinct keys on that
column (no two rows tie under the comparator), the re-sorted sequence is
exactly the reverse of the once-sorted sequence; ties break the reversal
because the stable sort preserves their relative order in both
directions. -/
theorem sort_toggle_reverses_amended (s : AppState) (c : Column)
    (hD : (visibleRows s).Pairwise fun a b => ¬(RowLe c a b ∧ RowLe c b a)) :
    visibleRows (sortTable c (sortTable c s)) =
      (visibleRows (sortTable c s)).reverse := by
  have h1 : visibleRows (sortTable c s) =
      sortRun c (if s.sortColumn = some c then !s.sortAscending else true)
        (visibleRows s) :=
    visibleRows_sortTable c s
  have h2 : visibleRows (sortTable c (sortTable c s)) =
      sortRun c (!(if s.sortColumn = some c then !s.sortAscending else true))
        (visibleRows (sortTable c s)) := by
    rw [visibleRows_sortTable c (sortTable c s), sortTable_sortColumn,
      sortTable_sortAscending]
    simp
  rw [h2, h1]
  have hDperm : ∀ asc : Bool,
      (sortRun c asc (visibleRows s)).Pairwise
        fun a b => ¬(RowLe c a b ∧ RowLe c b a) := by
    intro asc
    exact ((sortRun_perm c asc (visibleRows s)).pairwise_iff
      (fun h hc => h ⟨hc.2, hc.1⟩)).mpr hD
  cases hd : (if s.sortColumn = some c then !s.sortAscending else true) with
  | true =>
    have hs : (sortRun c true (visibleRows s)).Pairwise (RowLe c) :=
      List.sorted_insertionSort _ _
    exact insertionSort_flip_eq_reverse (RowLe c) (RowGe c)
      (fun _ _ => Iff.rfl) _ hs (hDperm true)
  | false =>
    have hs : (sortRun c false (visibleRows s)).Pairwise (RowGe c) :=
      List.sorted_insertionSort _ _
    exact insertionSort_flip_eq_reverse (RowGe c) (RowLe c)
      (fun _ _ => Iff.rfl) _ hs
      ((hDperm false).imp (fun h hc => h ⟨hc.2, hc.1⟩))

/-- Witness for the amended C5: distinct keys (`1650` versus null) on a
fresh two-row state. -/
theorem sort_toggle_reverses_amended_witness :
    visibleRows (sortTable Column.manryoValue (sortTable Column.manryoValue
        (baseState [rowSafe, rowSkill]))) =
      (visibleRows (sortTable Column.manryoValue
        (baseState [rowSafe, rowSkill]))).reverse :=
  sort_toggle_reverses_amended (baseState [rowSafe, rowSkill])
    Column.manryoValue (by decide)

/-! ### Claim C4 -/

theorem charsPrefix_iff (p l : List Char) : charsPrefix p l = true ↔ p <+: l := by
  induction p generalizing l with
  | nil => simp [charsPrefix]
  | cons c p ih =>
    cases l with
    | nil => simp [charsPrefix]
    | cons a t => simp [charsPrefix, List.cons_prefix_cons, ih]

theorem listIncludes_iff (pat l : List Char) :
    listIncludes pat l = true ↔ pat <:+: l := by
  induction l with
  | nil => simp [listIncludes, List.isEmpty_iff]
  | cons a t ih => simp [listIncludes, charsPrefix_iff, ih, List.infix_cons_iff]

/-- C4 counterexample: with the `expired` filter active on a one-record
dataset whose record is not expired, the filtered view is empty, yet a
search matching the record's name makes it visible — search reads the
full Dataset and replaces, rather than narrows, the filter's output. -/
theorem search_narrows_counterexample :
    rowSkill ∈ visibleRows (searchData "TARO"
        (filterData "expired" (baseState [rowSkill])))
    ∧ rowSkill ∉ visibleRows (filterData "expired" (baseState [rowSkill])) := by
  decide

/-- C4 amended: the search predicate is the case-insensitive substring
match over personCode, nameLine1, nameLine2, statusCategory and
nationality, but a non-empty search filters the full Dataset,
*replacing* the active named filter's output instead of narrowing it;
an empty search re-aliases the full Dataset. -/
theorem search_full_dataset_amended (s : AppState) (raw : String) :
    (jsTrim (jsToLower raw) ≠ "" →
      visibleRows (searchData raw s) =
        s.allData.filter (searchPredicate (jsTrim (jsToLower raw))))
    ∧ (jsTrim (jsToLower raw) = "" → visibleRows (searchData raw s) = s.allData)
    ∧ ∀ (t : String) (r : Row),
        searchPredicate t r = true ↔
          (t.toList <:+: (jsToLower r.personCode).toList ∨
           t.toList <:+: (jsToLower r.nameLine1).toList ∨
           t.toList <:+: (jsToLower r.nameLine2).toList ∨
           t.toList <:+: (jsToLower r.statusCategory).toList ∨
           t.toList <:+: (jsToLower r.nationality).toList) := by
  refine ⟨?_, ?_, ?_⟩
  · intro h
    unfold searchData
    rw [if_neg h]
    rfl
  · intro h
    unfold searchData
    rw [if_pos h]
    rfl
  · intro t r
    unfold searchPredicate strIncludes
    simp [listIncludes_iff, or_assoc]

/-- Witness for the amended C4: a non-empty search over a state with the
`expired` filter active. -/
theorem search_full_dataset_amended_witness :
    visibleRows (searchData "TARO" (filterData "expired" (baseState [rowSkill]))) =
      (filterData "expired" (baseState [rowSkill])).allData.filter
        (searchPredicate (jsTrim (jsToLower "TARO"))) :=
  (search_full_dataset_amended _ "TARO").1 (by decide)

/-! ### Claim C3 -/

theorem jsParseInt_empty : jsParseInt "" = none := rfl

/-- C3 counterexample: with the tier-1 marker present, the `既満了日数`
input `"3.5"` is not a non-negative integer, yet `handleFormSubmit`
issues the add request (with the raw `"3.5"` in the payload) instead of
rejecting it: the code only checks `parseInt(v)`, which yields `3`. -/
theorem tier1_validation_counterexample :
    specNonnegIntegerString "3.5" = false
    ∧ handleFormSubmit fracForm = SubmitOutcome.postAdd (mkPayload fracForm) := by
  decide

/-- C3 amended: when the status category contains the tier-1 marker
(`特定技能` with ASCII `1号` or full-width `１号`), submission is blocked
with an alert focusing `edit既満了日数` exactly when `parseInt` of that
field is `NaN` or negative (so strings with a non-negative integer
*prefix*, such as `"3.5"`, pass); a blocked outcome is produced before
any network request, and an accepted submission sends the raw field
value with no substituted default. -/
theorem tier1_validation_amended (f : EditFormState)
    (hm : tier1Marker f.statusCategoryInput = true) :
    ((∃ msg, handleFormSubmit f = SubmitOutcome.blocked msg "edit既満了日数") ↔
      ¬∃ n, jsParseInt f.kiManryoDaysInput = some n ∧ 0 ≤ n)
    ∧ (∀ msg fld, handleFormSubmit f = SubmitOutcome.blocked msg fld →
        fld = "edit既満了日数")
    ∧ (∀ n : Int, jsParseInt f.kiManryoDaysInput = some n → 0 ≤ n →
        handleFormSubmit f = submitRequest f)
    ∧ (mkPayload f).kiManryoDays = f.kiManryoDaysInput := by
  have hproceed : ∀ n : Int, jsParseInt f.kiManryoDaysInput = some n → 0 ≤ n →
      handleFormSubmit f = submitRequest f := by
    intro n hn hge
    unfold handleFormSubmit
    rw [if_pos hm]
    have hne : f.kiManryoDaysInput ≠ "" := by
      intro he
      rw [he, jsParseInt_empty] at hn
      cases hn
    rw [if_neg hne, hn]
    dsimp only
    rw [if_neg (not_lt.mpr hge)]
  refine ⟨⟨?_, ?_⟩, ?_, hproceed, rfl⟩
  · rintro ⟨msg, hmsg⟩ ⟨n, hp, hge⟩
    rw [hproceed n hp hge] at hmsg
    unfold submitRequest at hmsg
    split at hmsg <;> cases hmsg
  · intro hno
    by_cases he : f.kiManryoDaysInput = ""
    · refine ⟨"特定技能1号の場合、既満了日数の入力は必須です。\n0以上の数値を入力してください。", ?_⟩
      unfold handleFormSubmit
      rw [if_pos hm, if_pos he]
    · cases hp : jsParseInt f.kiManryoDaysInput with
      | none =>
        refine ⟨"既満了日数は0以上の数値を入力してください。", ?_⟩
        unfold handleFormSubmit
        rw [if_pos hm, if_neg he, hp]
      | some n =>
        have hneg : n < 0 := by
          by_contra hge
          exact hno ⟨n, hp, not_lt.mp hge⟩
        refine ⟨"既満了日数は0以上の数値を入力してください。", ?_⟩
        unfold handleFormSubmit
        rw [if_pos hm, if_neg he, hp]
        dsimp only
        rw [if_pos hneg]
  · intro msg fld hb
    unfold handleFormSubmit at hb
    rw [if_pos hm] at hb
    by_cases he : f.kiManryoDaysInput = ""
    · rw [if_pos he] at hb
      injection hb with h1 h2
      exact h2.symm
    · rw [if_neg he] at hb
      cases hp : jsParseInt f.kiManryoDaysInput with
      | none =>
        rw [hp] at hb
        dsimp only at hb
        injection hb with h1 h2
        exact h2.symm
      | some n =>
        rw [hp] at hb
        dsimp only at hb
        by_cases hneg : n < 0
        · rw [if_pos hneg] at hb
          injection hb with h1 h2
          exact h2.symm
        · rw [if_neg hneg] at hb
          unfold submitRequest at hb
          split at hb <;> cases hb

/-- Witness for the amended C3: the valid input `"1650"` passes the
check and issues the add request. -/
theorem tier1_validation_amended_witness :
    handleFormSubmit validForm = SubmitOutcome.postAdd (mkPayload validForm) :=
  ((tier1_validation_amended validForm (by decide)).2.2.1 1650
    (by decide) (by decide)).trans rfl

/-! ### Claim C8 -/

/-- C8: the unsaved-change tracker is the two-state machine over the
observable pair (`hasUnsavedChanges`, `lastChangeTimestamp`): every
successful add/update/delete (which runs `markUnsavedChanges`) moves it
to Dirty and records the current time; a successful processed-data
export (which runs `resetUnsavedChanges`) moves it to Clean; and
receiving a summary whose parsed `lastExportedAt` is at least the
recorded change time moves it to Clean and stores the export time (the
positivity hypothesis reflects that `Date.now()` is a positive epoch
value, as the code's truthiness guard skips a zero timestamp). -/
theorem tracker_state_machine (s : TrackerState) (t tc te : Nat) :
    ((markUnsavedChanges t s).hasUnsavedChanges = true
      ∧ (markUnsavedChanges t s).lastChangeTimestamp = some t)
    ∧ (resetUnsavedChanges s).hasUnsavedChanges = false
    ∧ (s.lastChangeTimestamp = some tc → 0 < tc → tc ≤ te →
        (updateLastExportInfo (some te) s).hasUnsavedChanges = false
        ∧ (updateLastExportInfo (some te) s).lastChangeTimestamp = none
        ∧ (updateLastExportInfo (some te) s).lastExportedAt = some te) := by
  refine ⟨⟨rfl, rfl⟩, rfl, ?_⟩
  intro hc hpos hle
  unfold updateLastExportInfo
  rw [hc]
  dsimp only
  rw [if_pos ⟨Nat.pos_iff_ne_zero.mp hpos, hle⟩]
  exact ⟨rfl, rfl, rfl⟩

/-- Witness for C8: a dirty state with change time 100 receives a
summary exported at 150 and becomes clean. -/
theorem tracker_state_machine_witness :
    (updateLastExportInfo (some 150) dirtyTracker).hasUnsavedChanges = false :=
  ((tracker_state_machine dirtyTracker 100 100 150).2.2 rfl (by decide)
    (by decide)).1

/-! ### Claim C9 -/

/-- C9 counterexample: a header carrying the plain form *before* the
encoded form yields the plain name, not the decoded encoded name —
`exec` returns the leftmost match, so the encoded form is not preferred
when both are present. -/
theorem filename_both_forms_counterexample :
    extractFilenameFromDisposition bothFormsPlainFirst = some "plain.xlsx"
    ∧ extractFilenameFromDisposition bothFormsPlainFirst ≠ some "在留.xlsx"
    ∧ decodeURIComponentModel "%E5%9C%A8%E7%95%99.xlsx" = some "在留.xlsx" := by
  decide

/-- C9 amended: the RFC 5987 form percent-decodes
(`filename*=UTF-8''%E5%9C%A8%E7%95%99.xlsx` gives `在留.xlsx`), the
plain form yields the unquoted name (`filename="plain.xlsx"` gives
`plain.xlsx`), and when both forms are present the parameter appearing
first in the header wins: the encoded form takes precedence only when
it precedes the plain form. -/
theorem filename_extraction_amended :
    extractFilenameFromDisposition
        ("attachment; filename*=UTF-8" ++ apos2 ++ "%E5%9C%A8%E7%95%99.xlsx") =
      some "在留.xlsx"
    ∧ extractFilenameFromDisposition "attachment; filename=\"plain.xlsx\"" =
        some "plain.xlsx"
    ∧ extractFilenameFromDisposition bothFormsEncodedFirst = some "在留.xlsx"
    ∧ extractFilenameFromDisposition bothFormsPlainFirst = some "plain.xlsx" := by
  decide

/-! ### Claim C10 -/

theorem ciLit_of_append (p q l : List Char) (h : ciLit (p ++ q) l = true) :
    ciLit p l = true := by
  induction p generalizing l with
  | nil => rfl
  | cons c p ih =>
    cases l with
    | nil => simp [ciLit] at h
    | cons a t =>
      simp only [List.cons_append, ciLit, Bool.and_eq_true] at h ⊢
      exact ⟨h.1, ih t h.2⟩

theorem ciLit_lower (p : List Char) (hp : ∀ c ∈ p, c.toLower = c) :
    ∀ l : List Char, ciLit p l = true →
      charsPrefix p (l.map Char.toLower) = true := by
  induction p with
  | nil => intro l _; rfl
  | cons c p ih =>
    intro l h
    cases l with
    | nil => simp [ciLit] at h
    | cons a t =>
      simp only [ciLit, Bool.and_eq_true, beq_iff_eq] at h
      simp only [List.map_cons, charsPrefix, Bool.and_eq_true, beq_iff_eq]
      refine ⟨(hp c (List.mem_cons_self c p)).symm.trans h.1, ?_⟩
      exact ih (fun x hx => hp x (List.mem_cons_of_mem c hx)) t h.2

theorem execFilenameRegex_none_of_no_filename (l : List Char)
    (h : listIncludes ("filename".toList) (l.map Char.toLower) = false) :
    execFilenameRegex l = none := by
  induction l with
  | nil => rfl
  | cons c t ih =>
    simp only [List.map_cons, listIncludes, Bool.or_eq_false_iff] at h
    obtain ⟨h1, h2⟩ := h
    have hfn : charsPrefix ("filename".toList) (c.toLower :: t.map Char.toLower) =
        false := h1
    have henc : tryEncodedAlt (c :: t) = none := by
      unfold tryEncodedAlt
      cases hcl : ciLit encPattern (c :: t) with
      | true =>
        have hdec : encPattern =
            "filename".toList ++ ("*=utf-8".toList ++ [apos, apos]) := by decide
        rw [hdec] at hcl
        have h3 := ciLit_lower _ (by decide) _ (ciLit_of_append _ _ _ hcl)
        rw [List.map_cons] at h3
        rw [hfn] at h3
        cases h3
      | false => simp [hcl]
    have hplain : tryPlainAlt (c :: t) = none := by
      unfold tryPlainAlt
      cases hcl : ciLit plainPattern (c :: t) with
      | true =>
        have hdec : plainPattern = "filename".toList ++ "=".toList := by decide
        rw [hdec] at hcl
        have h3 := ciLit_lower _ (by decide) _ (ciLit_of_append _ _ _ hcl)
        rw [List.map_cons] at h3
        rw [hfn] at h3
        cases h3
      | false => simp [hcl]
    simp only [execFilenameRegex, henc, hplain]
    exact ih h2

/-- C10: `extractFilenameFromDisposition` is total by construction (its
embedding returns an `Option`, the caught `URIError` included): it
returns `null` exactly when the regex finds no filename parameter — in
particular for every header that does not even contain the text
`filename` — and when the encoded capture's percent-decoding fails it
returns the raw, still-encoded capture instead of propagating the
exception. -/
theorem extraction_total_null_and_fallback :
    (∀ s : String, extractFilenameFromDisposition s = none ↔
      execFilenameRegex s.toList = none)
    ∧ (∀ s : String, strIncludes (jsToLower s) "filename" = false →
        extractFilenameFromDisposition s = none)
    ∧ ∀ (s enc : String), execFilenameRegex s.toList = some (Sum.inl enc) →
        decodeURIComponentModel enc = none →
        extractFilenameFromDisposition s = some enc := by
  refine ⟨?_, ?_, ?_⟩
  · intro s
    unfold extractFilenameFromDisposition
    cases hx : execFilenameRegex s.toList with
    | none => simp
    | some v =>
      cases v with
      | inl e =>
        cases hd : decodeURIComponentModel e <;> simp [hd]
      | inr p => simp
  · intro s h
    have hx : execFilenameRegex s.toList = none := by
      apply execFilenameRegex_none_of_no_filename
      have : (jsToLower s).toList = s.toList.map Char.toLower := rfl
      rw [strIncludes, this] at h
      exact h
    unfold extractFilenameFromDisposition
    rw [hx]
  · intro s enc h1 h2
    unfold extractFilenameFromDisposition
    rw [h1]
    dsimp only
    rw [h2]

/-- Witness for C10: a header with no filename parameter returns `null`,
and a malformed encoded capture (`%ZZ`) is returned raw. -/
theorem extraction_total_null_and_fallback_witness :
    extractFilenameFromDisposition "attachment" = none
    ∧ extractFilenameFromDisposition malformedHeader = some "%ZZ.xlsx" :=
  ⟨extraction_total_null_and_fallback.2.1 "attachment" (by decide),
   extraction_total_null_and_fallback.2.2 malformedHeader "%ZZ.xlsx"
     (by decide) (by decide)⟩

end ResidenceApp
